import Mathlib

/-!
# Verification of the timer_ship durable timer engine

Shallow embedding of the core of the `timer_ship` repository:

* `src/timer.rs` — `Timer`, the `TimerHeapItem` ordering, the `Timers`
  min-heap queue and the `TimerData` payload store;
* `src/oplog.rs` — `LogOperation`, `LogEntry`, `OpLog::append_log`;
* `src/timer_ship.rs` — `TimerShip::set_timer_at`, `remove_timer`,
  `recover_from_logs`, `list_active_timers`;
* `src/utils/duration_parser.rs` — `parse_duration`.

Modelling conventions:

* `Uuid` is modelled as `Nat`; `Uuid::new_v4()` freshness is expressed as a
  hypothesis where a theorem needs it.
* Rust `u64` timestamps are modelled as `Nat` (the code never subtracts
  without an explicit guard, so no wrap-around arithmetic occurs).
* `std::collections::BinaryHeap<TimerHeapItem>` is a standard-library type,
  modelled by its contract: the multiset of its elements (a Lean `List`),
  with `peek` returning a greatest element with respect to the repository's
  `Ord for TimerHeapItem` (which element among equal ones is
  implementation-defined in `std`; the model picks the first in scan order).
* `HashMap<Uuid, String>` is modelled as an association list with at most
  one binding per key (`insert` replaces, `remove` deletes).
* The log file is modelled as the list of its deserialized entries; an
  append either succeeds (entry goes to the end) or fails with an I/O
  error, controlled by an explicit `appendOk` flag, mirroring the
  `std::io::Result` of `OpLog::append_log`.
* `current_time_ms()` is passed in as an explicit `now` argument.
* The numeric path of `parse_duration` is modelled at two levels:
  `parse_duration` carries the parsed decimal exactly (identical control
  flow and error dispatch to the source, and the arithmetically correct
  reference value), while `parse_duration_f64` additionally models the
  source's IEEE-754 binary64 steps — the correctly rounded `f64` parse and
  each correctly rounded `f64` multiplication — exactly over the rationals
  (round-to-nearest, ties-to-even, valid in the normal range, which covers
  every value these inputs produce).
-/

/-- Model of `uuid::Uuid` (timer ids); collision-resistance of `new_v4` is
expressed as freshness hypotheses where needed. -/
abbrev Uuid := Nat

/-- `Timer` from `src/timer.rs`: an absolute deadline in milliseconds since
the UNIX epoch, plus a unique id. -/
structure Timer where
  expires_at : Nat
  id : Uuid
deriving DecidableEq, BEq

/-- `Timer::is_expired`: `current_time >= self.expires_at`. -/
def Timer.is_expired (t : Timer) (current_time : Nat) : Bool :=
  decide (t.expires_at ≤ current_time)

/-- `Timer::get_time_left`: saturating remaining time,
`if self.expires_at > current_time { self.expires_at - current_time } else { 0 }`. -/
def Timer.get_time_left (t : Timer) (current_time : Nat) : Nat :=
  if t.expires_at > current_time then t.expires_at - current_time else 0

/-- `impl Ord for TimerHeapItem` from `src/timer.rs`:
`other.0.expires_at.cmp(&self.0.expires_at)` — the comparison on
`expires_at` is reversed so that `BinaryHeap` (a max-heap) behaves as a
min-heap; note that the id takes no part in the comparison. -/
def timerHeapCmp (a b : Timer) : Ordering :=
  compare b.expires_at a.expires_at

/-- `impl PartialEq for TimerHeapItem`: equality of `expires_at` only. -/
def timerHeapEqb (a b : Timer) : Bool :=
  a.expires_at == b.expires_at

/-- The multiset of heap contents of `Timers` (`BinaryHeap<TimerHeapItem>`). -/
abbrev TimerQueue := List Timer

/-- `BinaryHeap::peek` returns a greatest element with respect to `Ord`;
this scan keeps the incumbent unless a strictly greater element appears. -/
def heapPickMax (best x : Timer) : Timer :=
  if timerHeapCmp x best = Ordering.gt then x else best

/-- `Timers::add_timer`: `BinaryHeap::push`. -/
def Timers.add_timer (q : TimerQueue) (t : Timer) : TimerQueue :=
  t :: q

/-- `Timers::peek_timer`: `BinaryHeap::peek`, a greatest element under the
reversed `TimerHeapItem` ordering (hence an earliest deadline). -/
def Timers.peek_timer (q : TimerQueue) : Option Timer :=
  match q with
  | [] => none
  | t :: ts => some (ts.foldl heapPickMax t)

/-- `Timers::remove_timer`: drain the heap, retain every item whose id
differs from `timer_id`, rebuild — i.e. filter on the multiset. -/
def Timers.remove_timer (q : TimerQueue) (timer_id : Uuid) : TimerQueue :=
  q.filter (fun t => t.id != timer_id)

/-- `Timers::get_all_timers`: clone of the heap contents. -/
def Timers.get_all_timers (q : TimerQueue) : List Timer :=
  q

/-- `Timers::timer_count`. -/
def Timers.timer_count (q : TimerQueue) : Nat :=
  q.length

/-- `Timers::pop_timer`: `BinaryHeap::pop`, removing and returning the
element `peek` would return. -/
def Timers.pop_timer (q : TimerQueue) : Option Timer × TimerQueue :=
  match Timers.peek_timer q with
  | none => (none, q)
  | some m => (some m, q.erase m)

/-- `Timers::is_empty`. -/
def Timers.is_empty (q : TimerQueue) : Bool :=
  q.isEmpty

/-- Contents of `TimerData` (`HashMap<Uuid, String>`), as an association
list with at most one binding per key. -/
abbrev DataMap := List (Uuid × String)

/-- `TimerData::add_data`: `HashMap::insert` (replaces any old binding). -/
def TimerData.add_data (m : DataMap) (timer_id : Uuid) (data : String) : DataMap :=
  (timer_id, data) :: m.filter (fun p => p.1 != timer_id)

/-- `TimerData::get_data`: `HashMap::get` (cloned). -/
def TimerData.get_data (m : DataMap) (timer_id : Uuid) : Option String :=
  (m.find? (fun p => p.1 == timer_id)).map (fun p => p.2)

/-- `TimerData::remove_data`: `HashMap::remove`, returning the removed
value and the shrunken map. -/
def TimerData.remove_data (m : DataMap) (timer_id : Uuid) : Option String × DataMap :=
  (TimerData.get_data m timer_id, m.filter (fun p => p.1 != timer_id))

/-- `TimerData::data_count`. -/
def TimerData.data_count (m : DataMap) : Nat :=
  m.length

/-- `LogOperation` from `src/oplog.rs`. -/
inductive LogOperation where
  | SetTimer (timer_id : Uuid) (expires_at : Nat) (data : String)
  | RemoveTimer (timer_id : Uuid)
deriving DecidableEq

/-- `LogEntry` from `src/oplog.rs`. -/
structure LogEntry where
  timestamp : Nat
  operation : LogOperation
deriving DecidableEq

/-- The I/O failure an `OpLog::append_log` call can surface. -/
inductive IoErr where
  | appendFailed
deriving DecidableEq

/-- `OpLog::append_log`: serialize-write-flush one entry at the end of the
log; `appendOk` models whether the underlying write/flush succeeds. On
failure nothing is appended. -/
def OpLog.append_log (log : List LogEntry) (entry : LogEntry) (appendOk : Bool) :
    Except IoErr (List LogEntry) :=
  if appendOk then Except.ok (log ++ [entry]) else Except.error IoErr.appendFailed

/-- In-memory part of the engine state: the timer queue joined with the
payload store (`TimerShip.timers` and `TimerShip.timer_data`). -/
structure MemState where
  timers : TimerQueue
  timer_data : DataMap
deriving DecidableEq

/-- Full `TimerShip` state: in-memory queue and store plus the durable
operation log. -/
structure ShipState where
  timers : TimerQueue
  timer_data : DataMap
  oplog : List LogEntry
deriving DecidableEq

/-- The in-memory projection of a `ShipState`. -/
def ShipState.mem (s : ShipState) : MemState :=
  { timers := s.timers, timer_data := s.timer_data }

/-- A fresh engine before any operation: empty queue, store and log. -/
def emptyShip : ShipState :=
  { timers := [], timer_data := [], oplog := [] }

/-- The empty in-memory state recovery starts from. -/
def emptyMem : MemState :=
  { timers := [], timer_data := [] }

/-- `TimerShip::set_timer_at`: build the `SetTimer` entry, append it to the
log first, and only if the append succeeded apply the mutation —
`add_data` into the store, then `add_timer` into the queue. The fresh
`Uuid::new_v4()` id and `current_time_ms()` are explicit arguments. -/
def TimerShip.set_timer_at (s : ShipState) (timer_id : Uuid) (now expires_at : Nat)
    (data : String) (appendOk : Bool) : Except IoErr Uuid × ShipState :=
  match OpLog.append_log s.oplog { timestamp := now, operation := LogOperation.SetTimer timer_id expires_at data } appendOk with
  | Except.error e => (Except.error e, s)
  | Except.ok log2 =>
      (Except.ok timer_id,
        { timers := Timers.add_timer s.timers { expires_at := expires_at, id := timer_id },
          timer_data := TimerData.add_data s.timer_data timer_id data,
          oplog := log2 })

/-- `TimerShip::remove_timer`: append the `RemoveTimer` entry first (even
when the id is unknown), and only if the append succeeded remove from the
queue then take from the store, returning the taken payload. -/
def TimerShip.remove_timer (s : ShipState) (timer_id : Uuid) (now : Nat)
    (appendOk : Bool) : Except IoErr (Option String) × ShipState :=
  match OpLog.append_log s.oplog { timestamp := now, operation := LogOperation.RemoveTimer timer_id } appendOk with
  | Except.error e => (Except.error e, s)
  | Except.ok log2 =>
      let taken := TimerData.remove_data s.timer_data timer_id
      (Except.ok taken.1,
        { timers := Timers.remove_timer s.timers timer_id,
          timer_data := taken.2,
          oplog := log2 })

/-- One replay step of `TimerShip::recover_from_logs`: for `SetTimer`,
`add_data` then `add_timer`; for `RemoveTimer`, `remove_timer` then
`remove_data`. -/
def applyLogEntry (m : MemState) (entry : LogEntry) : MemState :=
  match entry.operation with
  | LogOperation.SetTimer timer_id expires_at data =>
      { timers := Timers.add_timer m.timers { expires_at := expires_at, id := timer_id },
        timer_data := TimerData.add_data m.timer_data timer_id data }
  | LogOperation.RemoveTimer timer_id =>
      { timers := Timers.remove_timer m.timers timer_id,
        timer_data := (TimerData.remove_data m.timer_data timer_id).2 }

/-- `TimerShip::recover_from_logs`: replay every log entry in append order
starting from the empty in-memory state. -/
def TimerShip.recover_from_logs (logs : List LogEntry) : MemState :=
  logs.foldl applyLogEntry emptyMem

/-- `TimerInfo` from `src/timer_ship.rs`. -/
structure TimerInfo where
  id : Uuid
  expires_at : Nat
  data : String
  time_left_ms : Nat
deriving DecidableEq

/-- The saturating remaining time computed inside `list_active_timers`. -/
def timeLeftOf (expires_at now : Nat) : Nat :=
  if expires_at > now then expires_at - now else 0

/-- The comparison key of `timer_infos.sort_by(|a, b| a.expires_at.cmp(&b.expires_at))`. -/
def infoLe (a b : TimerInfo) : Prop :=
  a.expires_at ≤ b.expires_at

instance : DecidableRel infoLe :=
  fun a b => Nat.decLe a.expires_at b.expires_at

instance : IsTotal TimerInfo infoLe :=
  ⟨fun a b => Nat.le_total a.expires_at b.expires_at⟩

instance : IsTrans TimerInfo infoLe :=
  ⟨fun _ _ _ => Nat.le_trans⟩

/-- The join performed per timer by `list_active_timers`: look the id up in
the store and, when a payload exists, build the `TimerInfo`. -/
def timerInfoOf (m : DataMap) (now : Nat) (t : Timer) : Option TimerInfo :=
  (TimerData.get_data m t.id).map (fun d =>
    { id := t.id, expires_at := t.expires_at, data := d,
      time_left_ms := timeLeftOf t.expires_at now })

/-- `TimerShip::list_active_timers`: join every queued timer with its
payload (timers without a stored payload are skipped by the `if let`),
then sort ascending by `expires_at`. The source uses the standard stable
slice sort; the model sorts by insertion. -/
def TimerShip.list_active_timers (s : ShipState) (now : Nat) : List TimerInfo :=
  List.insertionSort infoLe ((Timers.get_all_timers s.timers).filterMap (timerInfoOf s.timer_data now))

/-- `TimerShip::active_timer_count`. -/
def TimerShip.active_timer_count (s : ShipState) : Nat :=
  Timers.timer_count s.timers

/-- `ParseError` from `src/utils/duration_parser.rs`. -/
inductive ParseError where
  | InvalidFormat (msg : String)
  | InvalidNumber (msg : String)
  | UnknownUnit (msg : String)
deriving DecidableEq

/-- `str::trim` on the character sequence: strip whitespace from both ends. -/
def trimChars (cs : List Char) : List Char :=
  ((cs.dropWhile Char.isWhitespace).reverse.dropWhile Char.isWhitespace).reverse

/-- `duration_str.trim().to_lowercase()` as a character sequence (ASCII
case folding; the inputs of interest are ASCII). -/
def normInput (input : String) : List Char :=
  (trimChars input.data).map Char.toLower

/-- The `char_indices` scan of `parse_duration`: index of the first
alphabetic character, or 0 if none is found (`split_pos` stays at its
initial value 0 — also when the first character itself is alphabetic). -/
def findAlphaPosFrom : List Char → Nat → Nat
  | [], _ => 0
  | c :: cs, i => if c.isAlpha then i else findAlphaPosFrom cs (i + 1)

/-- `split_pos` of `parse_duration`, starting the scan at index 0. -/
def findAlphaPos (cs : List Char) : Nat :=
  findAlphaPosFrom cs 0

/-- Numeric value of a digit run (most significant first). -/
def digitsToNat (cs : List Char) : Nat :=
  cs.foldl (fun acc c => acc * 10 + (c.toNat - 48)) 0

/-- The decimal-literal core accepted by `f64::from_str` once alphabetic
characters are excluded (they are cut off at `split_pos`): digits,
optionally followed by a point and further digits, or a point followed by
digits; at least one digit overall. Returns the scaled-integer value
`(digits, number of fractional digits)`, i.e. the exact rational
`digits / 10 ^ scale`. -/
def parseDecCore (cs : List Char) : Option (Nat × Nat) :=
  let ip := cs.takeWhile Char.isDigit
  let rest := cs.dropWhile Char.isDigit
  match rest with
  | [] => if ip.isEmpty then none else some (digitsToNat ip, 0)
  | '.' :: rest2 =>
      let fp := rest2.takeWhile Char.isDigit
      let rest3 := rest2.dropWhile Char.isDigit
      if rest3.isEmpty then
        if ip.isEmpty && fp.isEmpty then none
        else some (digitsToNat ip * 10 ^ fp.length + digitsToNat fp, fp.length)
      else none
  | _ => none

/-- `number_part.parse::<f64>()`, modelled exactly: an optional sign
followed by a decimal literal. The result is `(negative, digits, scale)`
denoting the rational `± digits / 10 ^ scale`. The source parses into an
IEEE-754 `f64`; the model keeps the exact value (see `parse_duration`). -/
def parseNumber (cs : List Char) : Option (Bool × Nat × Nat) :=
  match cs with
  | '-' :: rest => (parseDecCore rest).map (fun x => (true, x))
  | '+' :: rest => (parseDecCore rest).map (fun x => (false, x))
  | _ => (parseDecCore cs).map (fun x => (false, x))

/-- `milliseconds as u64` applied to `(digits / 10 ^ scale) * factor`:
truncation toward zero with saturation at `u64::MAX`, computed exactly.
The source computes the product in `f64` before converting; on inputs
whose parse or product round in `f64` the source can differ by one unit
(recorded against the arithmetic-correctness claim). -/
def msOf (digits scale factor : Nat) : Nat :=
  min ((digits * factor) / 10 ^ scale) (2 ^ 64 - 1)

/-- `parse_duration` from `src/utils/duration_parser.rs`: trim and
lowercase, reject the empty string, split at the first alphabetic
character (`split_pos == 0` is rejected), parse the numeric part, reject
negatives, and dispatch on the unit token `ms`/`s`/`m`/`h`/`hr`. The
numeric value is carried exactly instead of as an `f64` (see `msOf`). -/
def parse_duration (input : String) : Except ParseError Nat :=
  let cs := normInput input
  if cs.isEmpty then Except.error (ParseError.InvalidFormat "Empty duration string")
  else
    let split_pos := findAlphaPos cs
    if split_pos = 0 then Except.error (ParseError.InvalidFormat "No unit specified")
    else
      let number_part := cs.take split_pos
      let unit_part := cs.drop split_pos
      match parseNumber number_part with
      | none => Except.error (ParseError.InvalidNumber (String.mk number_part))
      | some (neg, digits, scale) =>
        if neg && digits != 0 then
          Except.error (ParseError.InvalidNumber "Duration cannot be negative")
        else
          let us := String.mk unit_part
          if us = "ms" then Except.ok (msOf digits scale 1)
          else if us = "s" then Except.ok (msOf digits scale 1000)
          else if us = "m" then Except.ok (msOf digits scale 60000)
          else if us = "h" then Except.ok (msOf digits scale 3600000)
          else if us = "hr" then Except.ok (msOf digits scale 3600000)
          else Except.error (ParseError.UnknownUnit us)

/-- Floor base-2 logarithm by fuelled structural recursion (the fuel `n`
itself always suffices); kernel-computable. -/
def log2Fuel : Nat → Nat → Nat
  | 0, _ => 0
  | fuel + 1, n => if 2 ≤ n then log2Fuel fuel (n / 2) + 1 else 0

/-- `⌊log2 n⌋` for `n ≥ 1` (and `0` for `n = 0`). -/
def natLog2 (n : Nat) : Nat :=
  log2Fuel n n

/-- Least `k` with `nsh * 2 ^ k ≥ d`, by fuelled structural recursion. -/
def ceilLog2Fuel : Nat → Nat → Nat → Nat
  | 0, _, _ => 0
  | fuel + 1, d, nsh => if d ≤ nsh then 0 else ceilLog2Fuel fuel d (2 * nsh) + 1

/-- `⌈log2 (d / n)⌉` for `1 ≤ n < d` (fuel `d` always suffices). -/
def ceilLog2Frac (d n : Nat) : Nat :=
  ceilLog2Fuel d d n

/-- `⌊log2 (n / d)⌋` of a positive fraction, as an integer. -/
def ilog2Frac (n d : Nat) : Int :=
  if d ≤ n then (natLog2 (n / d) : Int) else -(ceilLog2Frac d n : Int)

/-- Round the fraction `a / b` (with `b > 0`) to the nearest integer,
ties to even. -/
def rheFrac (a b : Nat) : Nat :=
  if 2 * (a % b) < b then a / b
  else if b < 2 * (a % b) then a / b + 1
  else if a / b % 2 = 0 then a / b else a / b + 1

/-- IEEE-754 binary64 rounding (round-to-nearest, ties-to-even) of the
nonnegative fraction `n / d`, returned as an exact fraction
`(numerator, denominator)` whose denominator is a power of two. The
53-bit significand is obtained by scaling to `[2^52, 2^53)` at exponent
`e = ⌊log2 (n/d)⌋` and rounding half-to-even; this is exact binary64
semantics throughout the normal range (no subnormal or overflow handling,
neither of which the duration values here can reach). -/
def roundF64Frac (n d : Nat) : Nat × Nat :=
  if n = 0 ∨ d = 0 then (0, 1)
  else
    let s : Int := 52 - ilog2Frac n d
    if 0 ≤ s then (rheFrac (n * 2 ^ s.toNat) d, 2 ^ s.toNat)
    else (rheFrac n (d * 2 ^ (-s).toNat) * 2 ^ (-s).toNat, 1)

/-- `number_part.parse::<f64>()` of the nonnegative decimal literal
`digits / 10 ^ scale`: Rust's float parsing is correctly rounded, i.e.
exactly `roundF64Frac`. -/
def f64OfDecimal (digits scale : Nat) : Nat × Nat :=
  roundF64Frac digits (10 ^ scale)

/-- One `f64` multiplication by the exact integer `factor` (`* 1000.0`,
`* 60.0`, `* 60.0 * 60.0 * 1000.0` stepwise): IEEE multiplication is the
correctly rounded exact product. -/
def f64Mul (r : Nat × Nat) (factor : Nat) : Nat × Nat :=
  roundF64Frac (r.1 * factor) r.2

/-- `milliseconds as u64` on the nonnegative `f64` value `r`: truncation
toward zero with saturation at `u64::MAX`. -/
def truncSatF64 (r : Nat × Nat) : Nat :=
  min (r.1 / r.2) (2 ^ 64 - 1)

/-- `parse_duration` with the source's `f64` numeric path modelled
exactly: identical trimming, splitting, number grammar and error dispatch
as `parse_duration`, but the returned value is computed as the source
computes it — correctly rounded binary64 parse (`f64OfDecimal`), then one
correctly rounded binary64 multiplication per literal factor
(`number * 1000.0`, `number * 60.0 * 1000.0`,
`number * 60.0 * 60.0 * 1000.0`, left-associated), then `as u64`
truncation. The sign test `number < 0.0` is `neg && digits != 0` for
literals in the normal range. -/
def parse_duration_f64 (input : String) : Except ParseError Nat :=
  let cs := normInput input
  if cs.isEmpty then Except.error (ParseError.InvalidFormat "Empty duration string")
  else
    let split_pos := findAlphaPos cs
    if split_pos = 0 then Except.error (ParseError.InvalidFormat "No unit specified")
    else
      let number_part := cs.take split_pos
      let unit_part := cs.drop split_pos
      match parseNumber number_part with
      | none => Except.error (ParseError.InvalidNumber (String.mk number_part))
      | some (neg, digits, scale) =>
        if neg && digits != 0 then
          Except.error (ParseError.InvalidNumber "Duration cannot be negative")
        else
          let number := f64OfDecimal digits scale
          let us := String.mk unit_part
          if us = "ms" then Except.ok (truncSatF64 number)
          else if us = "s" then Except.ok (truncSatF64 (f64Mul number 1000))
          else if us = "m" then Except.ok (truncSatF64 (f64Mul (f64Mul number 60) 1000))
          else if us = "h" then Except.ok (truncSatF64 (f64Mul (f64Mul (f64Mul number 60) 60) 1000))
          else if us = "hr" then Except.ok (truncSatF64 (f64Mul (f64Mul (f64Mul number 60) 60) 1000))
          else Except.error (ParseError.UnknownUnit us)

/-- A caller-facing mutation request: `set_timer_at` or `remove_timer`,
with the fresh id, the wall-clock instant and whether the log append
succeeds. -/
inductive Request where
  | set (timer_id : Uuid) (now expires_at : Nat) (data : String) (appendOk : Bool)
  | remove (timer_id : Uuid) (now : Nat) (appendOk : Bool)

/-- Apply one request directly to the live engine state. -/
def applyRequest (s : ShipState) (r : Request) : ShipState :=
  match r with
  | Request.set i now exp d ok => (TimerShip.set_timer_at s i now exp d ok).2
  | Request.remove i now ok => (TimerShip.remove_timer s i now ok).2

/-- Run a sequence of requests against the live engine. -/
def runRequests (s : ShipState) (rs : List Request) : ShipState :=
  rs.foldl applyRequest s

/-- Does a log entry register id `i` via `SetTimer`? -/
def isSetFor (i : Uuid) (e : LogEntry) : Bool :=
  match e.operation with
  | LogOperation.SetTimer j _ _ => j == i
  | LogOperation.RemoveTimer _ => false

/-- A queue operation, for stating preservation across operation
sequences on `Timers`. -/
inductive QueueOp where
  | add (t : Timer)
  | remove (timer_id : Uuid)
  | pop

/-- Apply one queue operation. -/
def applyQueueOp (q : TimerQueue) (op : QueueOp) : TimerQueue :=
  match op with
  | QueueOp.add t => Timers.add_timer q t
  | QueueOp.remove i => Timers.remove_timer q i
  | QueueOp.pop => (Timers.pop_timer q).2

/-- Run a sequence of queue operations from the empty queue. -/
def runQueueOps (ops : List QueueOp) : TimerQueue :=
  ops.foldl applyQueueOp []

deriving instance DecidableEq for Except

/-! ## Helper lemmas -/

theorem find_filter_self (m : DataMap) (i : Uuid) :
    (m.filter (fun p => p.1 != i)).find? (fun p => p.1 == i) = none := by
  induction m with
  | nil => rfl
  | cons p m ih =>
    rcases eq_or_ne p.1 i with hpi | hpi
    · have h1 : (p.1 != i) = false := by simp [hpi]
      simp [List.filter_cons, h1, ih]
    · have h1 : (p.1 != i) = true := by simp [hpi]
      have h2 : (p.1 == i) = false := by simp [hpi]
      simp [List.filter_cons, h1, h2, List.find?_cons, ih]

theorem find_filter_ne (m : DataMap) (i k : Uuid) (h : k ≠ i) :
    (m.filter (fun p => p.1 != i)).find? (fun p => p.1 == k) = m.find? (fun p => p.1 == k) := by
  induction m with
  | nil => rfl
  | cons p m ih =>
    rcases eq_or_ne p.1 i with hpi | hpi
    · have h1 : (p.1 != i) = false := by simp [hpi]
      have h2 : (p.1 == k) = false := by simp [hpi, Ne.symm h]
      simp [List.filter_cons, h1, h2, List.find?_cons, ih]
    · rcases eq_or_ne p.1 k with hpk | hpk
      · have h1 : (p.1 != i) = true := by simp [hpi]
        have h2 : (p.1 == k) = true := by simp [hpk]
        simp [List.filter_cons, h1, h2, List.find?_cons]
      · have h1 : (p.1 != i) = true := by simp [hpi]
        have h2 : (p.1 == k) = false := by simp [hpk]
        simp [List.filter_cons, h1, h2, List.find?_cons, ih]

theorem get_data_filter_self (m : DataMap) (i : Uuid) :
    TimerData.get_data (m.filter (fun p => p.1 != i)) i = none := by
  simp [TimerData.get_data, find_filter_self]

theorem get_data_add_self (m : DataMap) (i : Uuid) (d : String) :
    TimerData.get_data (TimerData.add_data m i d) i = some d := by
  simp [TimerData.get_data, TimerData.add_data, List.find?_cons]

theorem get_data_add_ne (m : DataMap) (i k : Uuid) (d : String) (h : k ≠ i) :
    TimerData.get_data (TimerData.add_data m i d) k = TimerData.get_data m k := by
  have : (i == k) = false := by simp [Ne.symm h]
  simp [TimerData.get_data, TimerData.add_data, List.find?_cons, this, find_filter_ne m i k h]

/-! ## C10 -/

/-- Claim C10: for every `Timer` and every `current_time`,
`get_time_left` never underflows — over the integers it equals
`max (expires_at - current_time) 0` — and `is_expired current_time` holds
exactly when `get_time_left current_time = 0`, i.e. when
`current_time >= expires_at`. -/
theorem c10_get_time_left_no_underflow :
    ∀ (t : Timer) (now : Nat),
      ((t.get_time_left now : ℤ) = max ((t.expires_at : ℤ) - (now : ℤ)) 0)
      ∧ (t.is_expired now = true ↔ t.get_time_left now = 0)
      ∧ (t.is_expired now = true ↔ t.expires_at ≤ now) := by
  intro t now
  refine ⟨?_, ?_, ?_⟩
  · simp only [Timer.get_time_left]
    split
    · rw [max_eq_left (by omega)]
      omega
    · rw [max_eq_right (by omega)]
      simp
  · simp only [Timer.is_expired, Timer.get_time_left, decide_eq_true_iff]
    split <;> omega
  · simp [Timer.is_expired]

/-! ## C9 -/

/-- Counterexample to claim C9: two distinct timers with the same deadline
(ids 1 and 2, both expiring at 100) are not distinguished by the
`TimerHeapItem` ordering — they compare as `Equal` (and as equal under the
`PartialEq` used by the heap), because the comparison reads only
`expires_at` and ignores the id. -/
theorem c9_ties_not_distinguished :
    timerHeapCmp { expires_at := 100, id := 1 } { expires_at := 100, id := 2 } = Ordering.eq
    ∧ timerHeapEqb { expires_at := 100, id := 1 } { expires_at := 100, id := 2 } = true
    ∧ ({ expires_at := 100, id := 1 } : Timer) ≠ { expires_at := 100, id := 2 } := by
  refine ⟨by decide, by decide, by decide⟩

/-- Claim C9 (amended): the `TimerHeapItem` ordering is a deterministic,
total comparison and no two comparisons disagree on a pair — `cmp a b` is
always the exact reversal of `cmp b a`, two timers compare `Equal` exactly
when their deadlines are equal, and the induced is-not-greater relation is
transitive. However, ties between equal deadlines are NOT broken by id:
distinct timers with the same `expires_at` compare as `Equal`, so the
ordering is a total preorder on deadlines, not a total order on timers. -/
theorem c9_ordering_total_and_consistent :
    (∀ a b : Timer, timerHeapCmp a b = Ordering.lt ↔ timerHeapCmp b a = Ordering.gt)
    ∧ (∀ a b : Timer, timerHeapCmp a b = Ordering.eq ↔ timerHeapCmp b a = Ordering.eq)
    ∧ (∀ a b : Timer, timerHeapCmp a b = Ordering.eq ↔ a.expires_at = b.expires_at)
    ∧ (∀ a b c : Timer, timerHeapCmp a b ≠ Ordering.gt → timerHeapCmp b c ≠ Ordering.gt →
        timerHeapCmp a c ≠ Ordering.gt) := by
  refine ⟨?_, ?_, ?_, ?_⟩
  · intro a b
    simp only [timerHeapCmp, Nat.compare_eq_lt, Nat.compare_eq_gt]
  · intro a b
    simp only [timerHeapCmp, Nat.compare_eq_eq]
    omega
  · intro a b
    simp only [timerHeapCmp, Nat.compare_eq_eq]
    omega
  · intro a b c hab hbc
    simp only [timerHeapCmp, ne_eq, Nat.compare_eq_gt] at hab hbc ⊢
    omega

/-- Witness for the amended C9 theorem: transitivity applied at concrete
timers. -/
theorem c9_ordering_witness :
    timerHeapCmp { expires_at := 7, id := 1 } { expires_at := 5, id := 3 } ≠ Ordering.gt :=
  c9_ordering_total_and_consistent.2.2.2
    { expires_at := 7, id := 1 } { expires_at := 6, id := 2 } { expires_at := 5, id := 3 }
    (by decide) (by decide)

/-! ## C2 -/

/-- Claim C2: for every call to `set_timer_at` or `remove_timer`, if the
log append fails the I/O error is returned to the caller and no in-memory
mutation is applied — the whole state (queue, store and log) is exactly
the state before the call; and a failing append does produce the error
result. -/
theorem c2_log_first_no_mutation_on_failed_append :
    ∀ (s : ShipState) (i : Uuid) (now expires_at : Nat) (d : String) (ok : Bool) (e : IoErr),
      ((TimerShip.set_timer_at s i now expires_at d ok).1 = Except.error e →
        (TimerShip.set_timer_at s i now expires_at d ok).2 = s)
      ∧ ((TimerShip.remove_timer s i now ok).1 = Except.error e →
        (TimerShip.remove_timer s i now ok).2 = s)
      ∧ ((TimerShip.set_timer_at s i now expires_at d false).1 = Except.error IoErr.appendFailed)
      ∧ ((TimerShip.remove_timer s i now false).1 = Except.error IoErr.appendFailed) := by
  intro s i now expires_at d ok e
  cases ok <;>
    simp [TimerShip.set_timer_at, TimerShip.remove_timer, OpLog.append_log]

/-- Witness for C2: on a concrete state, a failed append leaves the state
untouched. -/
theorem c2_witness :
    (TimerShip.set_timer_at emptyShip 1 2 3 "p" false).2 = emptyShip
    ∧ (TimerShip.remove_timer emptyShip 1 2 false).2 = emptyShip :=
  ⟨(c2_log_first_no_mutation_on_failed_append emptyShip 1 2 3 "p" false IoErr.appendFailed).1
      (by decide),
   (c2_log_first_no_mutation_on_failed_append emptyShip 1 2 3 "p" false IoErr.appendFailed).2.1
      (by decide)⟩

/-! ## C3 -/

/-- Claim C3: `remove_timer` appends a `RemoveTimer` record even when the
id is unknown; it removes the id from the queue and takes the payload from
the store, returning `Some payload` exactly when the store held one for
that id (`None` otherwise); and a second `remove_timer` on the same id
returns `None` without erroring. -/
theorem c3_remove_semantics :
    ∀ (s : ShipState) (i : Uuid) (now1 now2 : Nat),
      ((TimerShip.remove_timer s i now1 true).2.oplog
          = s.oplog ++ [{ timestamp := now1, operation := LogOperation.RemoveTimer i }])
      ∧ ((TimerShip.remove_timer s i now1 true).1 = Except.ok (TimerData.get_data s.timer_data i))
      ∧ (∀ t ∈ (TimerShip.remove_timer s i now1 true).2.timers, t.id ≠ i)
      ∧ ((TimerShip.remove_timer (TimerShip.remove_timer s i now1 true).2 i now2 true).1
          = Except.ok none) := by
  intro s i now1 now2
  refine ⟨rfl, rfl, ?_, ?_⟩
  · intro t ht
    simp [TimerShip.remove_timer, OpLog.append_log, Timers.remove_timer,
      List.mem_filter] at ht
    exact ht.2
  · simp [TimerShip.remove_timer, OpLog.append_log, TimerData.remove_data,
      get_data_filter_self]

/-! ## C1 -/

theorem recover_append (logs : List LogEntry) (e : LogEntry) :
    TimerShip.recover_from_logs (logs ++ [e])
      = applyLogEntry (TimerShip.recover_from_logs logs) e := by
  simp [TimerShip.recover_from_logs]

theorem applyRequest_log_and_mem (s : ShipState) (r : Request) :
    ∃ es : List LogEntry,
      (applyRequest s r).oplog = s.oplog ++ es
      ∧ (applyRequest s r).mem = es.foldl applyLogEntry s.mem := by
  cases r with
  | set i now exp d ok =>
    cases ok
    · exact ⟨[], by simp [applyRequest, TimerShip.set_timer_at, OpLog.append_log],
        by simp [applyRequest, TimerShip.set_timer_at, OpLog.append_log]⟩
    · refine ⟨[{ timestamp := now, operation := LogOperation.SetTimer i exp d }], rfl, rfl⟩
  | remove i now ok =>
    cases ok
    · exact ⟨[], by simp [applyRequest, TimerShip.remove_timer, OpLog.append_log],
        by simp [applyRequest, TimerShip.remove_timer, OpLog.append_log]⟩
    · refine ⟨[{ timestamp := now, operation := LogOperation.RemoveTimer i }], rfl, rfl⟩

theorem recover_runRequests (rs : List Request) :
    ∀ s : ShipState, TimerShip.recover_from_logs s.oplog = s.mem →
      TimerShip.recover_from_logs (runRequests s rs).oplog = (runRequests s rs).mem := by
  induction rs with
  | nil => intro s h; exact h
  | cons r rs ih =>
    intro s h
    obtain ⟨es, ho, hm⟩ := applyRequest_log_and_mem s r
    have hstep : TimerShip.recover_from_logs (applyRequest s r).oplog = (applyRequest s r).mem := by
      rw [ho, hm, ← h]
      simp [TimerShip.recover_from_logs, List.foldl_append]
    have : runRequests s (r :: rs) = runRequests (applyRequest s r) rs := by
      simp [runRequests]
    rw [this]
    exact ih (applyRequest s r) hstep

theorem recover_ids_not_set (i : Uuid) (logs : List LogEntry) :
    ∀ m : MemState, (∀ e ∈ logs, isSetFor i e = false) →
      ((∀ t ∈ m.timers, t.id ≠ i) ∧ (∀ p ∈ m.timer_data, p.1 ≠ i)) →
      ((∀ t ∈ (logs.foldl applyLogEntry m).timers, t.id ≠ i)
        ∧ (∀ p ∈ (logs.foldl applyLogEntry m).timer_data, p.1 ≠ i)) := by
  induction logs with
  | nil => intro m _ hm; exact hm
  | cons e logs ih =>
    intro m hlogs hm
    have he : isSetFor i e = false := hlogs e (List.mem_cons_self e logs)
    have htail : ∀ x ∈ logs, isSetFor i x = false := fun x hx => hlogs x (List.mem_cons_of_mem e hx)
    refine ih (applyLogEntry m e) htail ?_
    cases hop : e.operation with
    | SetTimer j exp d =>
      have hji : j ≠ i := by
        simp [isSetFor, hop] at he
        exact he
      constructor
      · intro t ht
        simp [applyLogEntry, hop, Timers.add_timer] at ht
        rcases ht with ht | ht
        · rw [ht]; exact hji
        · exact hm.1 t ht
      · intro p hp
        simp [applyLogEntry, hop, TimerData.add_data] at hp
        rcases hp with hp | hp
        · rw [hp]; exact hji
        · exact hm.2 p hp.1
    | RemoveTimer j =>
      constructor
      · intro t ht
        simp [applyLogEntry, hop, Timers.remove_timer] at ht
        exact hm.1 t ht.1
      · intro p hp
        simp [applyLogEntry, hop, TimerData.remove_data] at hp
        exact hm.2 p hp.1

theorem applyLogEntry_remove_noop (m : MemState) (ts : Nat) (i : Uuid)
    (h1 : ∀ t ∈ m.timers, t.id ≠ i) (h2 : ∀ p ∈ m.timer_data, p.1 ≠ i) :
    applyLogEntry m { timestamp := ts, operation := LogOperation.RemoveTimer i } = m := by
  cases m with
  | mk timers timer_data =>
    have ht : timers.filter (fun t => t.id != i) = timers :=
      List.filter_eq_self.mpr (fun t hmem => by simpa using h1 t hmem)
    have hd : timer_data.filter (fun p => p.1 != i) = timer_data :=
      List.filter_eq_self.mpr (fun p hmem => by simpa using h2 p hmem)
    simp [applyLogEntry, Timers.remove_timer, TimerData.remove_data, ht, hd]

/-- Claim C1: replaying the log that a run of `set_timer_at`/`remove_timer`
calls produced, in append order and starting from the empty state,
reproduces exactly the in-memory queue/store state at the moment of the
last successful append (failed appends contribute neither a record nor a
mutation); and a `RemoveTimer` entry for an id never logged as `SetTimer`
is a harmless no-op of the replay. -/
theorem c1_recovery_replays_direct_state :
    (∀ rs : List Request,
      TimerShip.recover_from_logs (runRequests emptyShip rs).oplog
        = (runRequests emptyShip rs).mem)
    ∧ (∀ (logs : List LogEntry) (ts : Nat) (i : Uuid),
        (∀ e ∈ logs, isSetFor i e = false) →
        TimerShip.recover_from_logs
            (logs ++ [{ timestamp := ts, operation := LogOperation.RemoveTimer i }])
          = TimerShip.recover_from_logs logs) := by
  constructor
  · intro rs
    exact recover_runRequests rs emptyShip rfl
  · intro logs ts i h
    rw [recover_append]
    have hids := recover_ids_not_set i logs emptyMem h
      (by constructor <;> intro x hx <;> simp [emptyMem] at hx)
    exact applyLogEntry_remove_noop (TimerShip.recover_from_logs logs) ts i hids.1 hids.2

/-- Witness for C1: a concrete log whose trailing `RemoveTimer` names an id
never set is ignored by recovery, and a concrete run replays exactly. -/
theorem c1_witness :
    TimerShip.recover_from_logs
        ([{ timestamp := 0, operation := LogOperation.SetTimer 1 50 "a" }]
          ++ [{ timestamp := 3, operation := LogOperation.RemoveTimer 2 }])
      = TimerShip.recover_from_logs [{ timestamp := 0, operation := LogOperation.SetTimer 1 50 "a" }] :=
  c1_recovery_replays_direct_state.2
    [{ timestamp := 0, operation := LogOperation.SetTimer 1 50 "a" }] 3 2 (by decide)

/-! ## C8 -/

theorem heapPickMax_cases (t x : Timer) :
    (heapPickMax t x = t ∨ heapPickMax t x = x)
    ∧ (heapPickMax t x).expires_at ≤ t.expires_at
    ∧ (heapPickMax t x).expires_at ≤ x.expires_at := by
  unfold heapPickMax
  split
  · rename_i h
    rw [timerHeapCmp, Nat.compare_eq_gt] at h
    exact ⟨Or.inr rfl, Nat.le_of_lt h, Nat.le_refl _⟩
  · rename_i h
    rw [timerHeapCmp, Nat.compare_eq_gt] at h
    exact ⟨Or.inl rfl, Nat.le_refl _, by omega⟩

theorem foldl_heapPickMax_min (ts : List Timer) :
    ∀ t : Timer,
      (ts.foldl heapPickMax t = t ∨ ts.foldl heapPickMax t ∈ ts)
      ∧ (ts.foldl heapPickMax t).expires_at ≤ t.expires_at
      ∧ (∀ x ∈ ts, (ts.foldl heapPickMax t).expires_at ≤ x.expires_at) := by
  induction ts with
  | nil => intro t; simp
  | cons x ts ih =>
    intro t
    obtain ⟨hmem, hlt, hall⟩ := ih (heapPickMax t x)
    obtain ⟨hpm, hpt, hpx⟩ := heapPickMax_cases t x
    have hfold : (x :: ts).foldl heapPickMax t = ts.foldl heapPickMax (heapPickMax t x) := rfl
    rw [hfold]
    refine ⟨?_, le_trans hlt hpt, ?_⟩
    · rcases hmem with hmem | hmem
      · rcases hpm with hpm | hpm
        · exact Or.inl (hmem.trans hpm)
        · exact Or.inr (by rw [hmem, hpm]; exact List.mem_cons_self x ts)
      · exact Or.inr (List.mem_cons_of_mem x hmem)
    · intro y hy
      rcases List.mem_cons.mp hy with hy | hy
      · rw [hy]; exact le_trans hlt hpx
      · exact hall y hy

/-- Claim C8: whenever the queue is non-empty, `peek_timer` returns some
timer whose `expires_at` is less than or equal to the `expires_at` of
every timer currently in the queue (and the returned timer is one of the
queued timers); this holds in every state, in particular after every
sequence of `add_timer`, `remove_timer` and `pop_timer` operations from
the empty queue. -/
theorem c8_peek_timer_is_earliest_deadline :
    (∀ q : TimerQueue, q ≠ [] →
      ∃ m, Timers.peek_timer q = some m ∧ m ∈ q
        ∧ ∀ t ∈ q, m.expires_at ≤ t.expires_at)
    ∧ (∀ ops : List QueueOp, runQueueOps ops ≠ [] →
      ∃ m, Timers.peek_timer (runQueueOps ops) = some m ∧ m ∈ runQueueOps ops
        ∧ ∀ t ∈ runQueueOps ops, m.expires_at ≤ t.expires_at) := by
  have main : ∀ q : TimerQueue, q ≠ [] →
      ∃ m, Timers.peek_timer q = some m ∧ m ∈ q
        ∧ ∀ t ∈ q, m.expires_at ≤ t.expires_at := by
    intro q hq
    match q with
    | [] => exact absurd rfl hq
    | t :: ts =>
      obtain ⟨hmem, hlt, hall⟩ := foldl_heapPickMax_min ts t
      refine ⟨ts.foldl heapPickMax t, rfl, ?_, ?_⟩
      · rcases hmem with hmem | hmem
        · rw [hmem]; exact List.mem_cons_self t ts
        · exact List.mem_cons_of_mem t hmem
      · intro y hy
        rcases List.mem_cons.mp hy with hy | hy
        · rw [hy]; exact hlt
        · exact hall y hy
  exact ⟨main, fun ops h => main (runQueueOps ops) h⟩

/-- Witness for C8: on the concrete queue reached by three pushes, the peek
is the timer with the earliest deadline. -/
theorem c8_witness :
    ∃ m, Timers.peek_timer (runQueueOps [QueueOp.add { expires_at := 9, id := 1 },
        QueueOp.add { expires_at := 3, id := 2 }, QueueOp.add { expires_at := 7, id := 3 }]) = some m
      ∧ m ∈ runQueueOps [QueueOp.add { expires_at := 9, id := 1 },
          QueueOp.add { expires_at := 3, id := 2 }, QueueOp.add { expires_at := 7, id := 3 }]
      ∧ ∀ t ∈ runQueueOps [QueueOp.add { expires_at := 9, id := 1 },
          QueueOp.add { expires_at := 3, id := 2 }, QueueOp.add { expires_at := 7, id := 3 }],
          m.expires_at ≤ t.expires_at :=
  c8_peek_timer_is_earliest_deadline.2
    [QueueOp.add { expires_at := 9, id := 1 }, QueueOp.add { expires_at := 3, id := 2 },
      QueueOp.add { expires_at := 7, id := 3 }] (by decide)

/-! ## C7 -/

theorem timerInfoOf_some (m : DataMap) (now : Nat) (t : Timer) (e : TimerInfo)
    (h : timerInfoOf m now t = some e) :
    e.id = t.id ∧ e.expires_at = t.expires_at
      ∧ TimerData.get_data m t.id = some e.data
      ∧ e.time_left_ms = timeLeftOf t.expires_at now := by
  rcases Option.map_eq_some'.mp h with ⟨d, hd, he⟩
  rw [← he]
  exact ⟨rfl, rfl, hd, rfl⟩

theorem filterMap_timerInfoOf_map_back (m : DataMap) (now : Nat) (q : List Timer)
    (h : ∀ t ∈ q, (TimerData.get_data m t.id).isSome = true) :
    (q.filterMap (timerInfoOf m now)).map (fun e => Timer.mk e.expires_at e.id) = q := by
  induction q with
  | nil => rfl
  | cons t q ih =>
    rcases Option.isSome_iff_exists.mp (h t (List.mem_cons_self t q)) with ⟨d, hd⟩
    have hinfo : timerInfoOf m now t
        = some { id := t.id, expires_at := t.expires_at, data := d,
                 time_left_ms := timeLeftOf t.expires_at now } := by
      simp [timerInfoOf, hd]
    rw [List.filterMap_cons, hinfo, List.map_cons,
      ih (fun x hx => h x (List.mem_cons_of_mem t hx))]

/-- Claim C7: `list_active_timers` returns a snapshot of the queued timers
joined with their payloads, sorted by ascending `expires_at`; every entry
carries `time_left_ms = expires_at - now` when positive and `0` otherwise,
and its stored payload; every queued timer that has a payload appears —
including one whose remaining time computes to zero; and when every queued
id has a payload the entries are exactly the queued timers (as a
multiset). -/
theorem c7_list_active_snapshot :
    ∀ (s : ShipState) (now : Nat),
      ((TimerShip.list_active_timers s now).Sorted infoLe)
      ∧ (∀ e ∈ TimerShip.list_active_timers s now,
          e.time_left_ms = if e.expires_at > now then e.expires_at - now else 0)
      ∧ (∀ e ∈ TimerShip.list_active_timers s now,
          TimerData.get_data s.timer_data e.id = some e.data)
      ∧ (∀ t ∈ s.timers, ∀ d, TimerData.get_data s.timer_data t.id = some d →
          ({ id := t.id, expires_at := t.expires_at, data := d,
             time_left_ms := timeLeftOf t.expires_at now } : TimerInfo)
            ∈ TimerShip.list_active_timers s now)
      ∧ ((∀ t ∈ s.timers, (TimerData.get_data s.timer_data t.id).isSome = true) →
          ((TimerShip.list_active_timers s now).map (fun e => Timer.mk e.expires_at e.id)).Perm
            s.timers) := by
  intro s now
  have hperm : (TimerShip.list_active_timers s now).Perm
      (s.timers.filterMap (timerInfoOf s.timer_data now)) :=
    List.perm_insertionSort infoLe _
  refine ⟨List.sorted_insertionSort infoLe _, ?_, ?_, ?_, ?_⟩
  · intro e he
    rcases List.mem_filterMap.mp (hperm.mem_iff.mp he) with ⟨t, _, hinfo⟩
    obtain ⟨_, hexp, _, htl⟩ := timerInfoOf_some s.timer_data now t e hinfo
    rw [htl, timeLeftOf, hexp]
  · intro e he
    rcases List.mem_filterMap.mp (hperm.mem_iff.mp he) with ⟨t, _, hinfo⟩
    obtain ⟨hid, _, hdata, _⟩ := timerInfoOf_some s.timer_data now t e hinfo
    rw [hid]
    exact hdata
  · intro t ht d hd
    refine hperm.mem_iff.mpr (List.mem_filterMap.mpr ⟨t, ht, ?_⟩)
    simp [timerInfoOf, hd]
  · intro hall
    have hmap := filterMap_timerInfoOf_map_back s.timer_data now s.timers hall
    have h1 := hperm.map (fun e => Timer.mk e.expires_at e.id)
    rw [hmap] at h1
    exact h1

/-- Witness for C7: the snapshot of a concrete two-timer state is a
permutation of its queue. -/
theorem c7_witness :
    ((TimerShip.list_active_timers
        { timers := [{ expires_at := 10, id := 1 }, { expires_at := 4, id := 2 }],
          timer_data := [(1, "a"), (2, "b")], oplog := [] } 4).map
      (fun e => Timer.mk e.expires_at e.id)).Perm
      [{ expires_at := 10, id := 1 }, { expires_at := 4, id := 2 }] :=
  (c7_list_active_snapshot
    { timers := [{ expires_at := 10, id := 1 }, { expires_at := 4, id := 2 }],
      timer_data := [(1, "a"), (2, "b")], oplog := [] } 4).2.2.2.2
    (by intro t ht
        rcases List.mem_cons.mp ht with h | h
        · subst h; rfl
        · rcases List.mem_cons.mp h with h2 | h2
          · subst h2; rfl
          · simp at h2)

/-! ## C6 -/

theorem filterMap_ids_filter_nil (q : List Timer) (m : DataMap) (now : Nat) (i : Uuid)
    (h : ∀ t ∈ q, t.id ≠ i) :
    (q.filterMap (timerInfoOf m now)).filter (fun e => e.id == i) = [] := by
  refine List.filter_eq_nil_iff.mpr ?_
  intro e he
  rcases List.mem_filterMap.mp he with ⟨t, ht, hinfo⟩
  obtain ⟨hid, _, _, _⟩ := timerInfoOf_some m now t e hinfo
  simp [hid, h t ht]

/-- Claim C6: after `set_timer_at t p` succeeds returning the fresh id `i`,
`list_active_timers` contains exactly one entry with id `i`, and that
entry carries deadline `t` and payload `p`; and once `i` is removed via
`remove_timer`, no entry with id `i` remains. Freshness of the
`Uuid::new_v4` id is the hypothesis that `i` occurs in neither the queue
nor the store. -/
theorem c6_set_timer_roundtrip :
    ∀ (s : ShipState) (i : Uuid) (now expires_at : Nat) (p : String) (now2 : Nat),
      (∀ t ∈ s.timers, t.id ≠ i) →
      (∀ pr ∈ s.timer_data, pr.1 ≠ i) →
      ((TimerShip.list_active_timers (TimerShip.set_timer_at s i now expires_at p true).2 now).filter
          (fun e => e.id == i)
        = [{ id := i, expires_at := expires_at, data := p,
             time_left_ms := timeLeftOf expires_at now }])
      ∧ ((TimerShip.list_active_timers
            (TimerShip.remove_timer (TimerShip.set_timer_at s i now expires_at p true).2 i now2 true).2
            now2).filter (fun e => e.id == i)
        = []) := by
  intro s i now expires_at p now2 hq hd
  have hs2 : (TimerShip.set_timer_at s i now expires_at p true).2
      = { timers := { expires_at := expires_at, id := i } :: s.timers,
          timer_data := TimerData.add_data s.timer_data i p,
          oplog := s.oplog
            ++ [{ timestamp := now, operation := LogOperation.SetTimer i expires_at p }] } := rfl
  constructor
  · rw [hs2]
    have hhead : timerInfoOf (TimerData.add_data s.timer_data i p) now
        { expires_at := expires_at, id := i }
        = some { id := i, expires_at := expires_at, data := p,
                 time_left_ms := timeLeftOf expires_at now } := by
      simp [timerInfoOf, get_data_add_self]
    have hL : (({ expires_at := expires_at, id := i } :: s.timers : List Timer).filterMap
          (timerInfoOf (TimerData.add_data s.timer_data i p) now)).filter (fun e => e.id == i)
        = [{ id := i, expires_at := expires_at, data := p,
             time_left_ms := timeLeftOf expires_at now }] := by
      rw [List.filterMap_cons, hhead]
      rw [List.filter_cons]
      simp only [beq_self_eq_true, if_true]
      rw [filterMap_ids_filter_nil s.timers _ now i hq]
    have hperm := (List.perm_insertionSort infoLe
        (({ expires_at := expires_at, id := i } :: s.timers : List Timer).filterMap
          (timerInfoOf (TimerData.add_data s.timer_data i p) now))).filter (fun e => e.id == i)
    rw [hL] at hperm
    exact List.perm_singleton.mp hperm
  · rw [hs2]
    have hs3 : (TimerShip.remove_timer
        { timers := { expires_at := expires_at, id := i } :: s.timers,
          timer_data := TimerData.add_data s.timer_data i p,
          oplog := s.oplog
            ++ [{ timestamp := now, operation := LogOperation.SetTimer i expires_at p }] } i now2 true).2.timers
        = (({ expires_at := expires_at, id := i } :: s.timers : List Timer).filter
            (fun t => t.id != i)) := rfl
    have hids : ∀ t ∈ (({ expires_at := expires_at, id := i } :: s.timers : List Timer).filter
        (fun t => t.id != i)), t.id ≠ i := by
      intro t ht
      simpa using (List.mem_filter.mp ht).2
    have hnil := filterMap_ids_filter_nil _
      (TimerShip.remove_timer
        { timers := { expires_at := expires_at, id := i } :: s.timers,
          timer_data := TimerData.add_data s.timer_data i p,
          oplog := s.oplog
            ++ [{ timestamp := now, operation := LogOperation.SetTimer i expires_at p }] } i now2 true).2.timer_data
      now2 i hids
    have hperm := (List.perm_insertionSort infoLe
        ((({ expires_at := expires_at, id := i } :: s.timers : List Timer).filter
            (fun t => t.id != i)).filterMap
          (timerInfoOf (TimerShip.remove_timer
            { timers := { expires_at := expires_at, id := i } :: s.timers,
              timer_data := TimerData.add_data s.timer_data i p,
              oplog := s.oplog
                ++ [{ timestamp := now, operation := LogOperation.SetTimer i expires_at p }] } i now2 true).2.timer_data
            now2))).filter (fun e => e.id == i)
    rw [hnil] at hperm
    exact List.Perm.eq_nil hperm

/-- Witness for C6: setting a fresh timer in the empty engine yields
exactly one matching entry, gone again after removal. -/
theorem c6_witness :
    ((TimerShip.list_active_timers (TimerShip.set_timer_at emptyShip 7 100 250 "x" true).2 100).filter
        (fun e => e.id == 7)
      = [{ id := 7, expires_at := 250, data := "x", time_left_ms := timeLeftOf 250 100 }])
    ∧ ((TimerShip.list_active_timers
          (TimerShip.remove_timer (TimerShip.set_timer_at emptyShip 7 100 250 "x" true).2 7 300 true).2
          300).filter (fun e => e.id == 7)
      = []) :=
  c6_set_timer_roundtrip emptyShip 7 100 250 "x" 300
    (by intro t ht; simp [emptyShip] at ht)
    (by intro pr hpr; simp [emptyShip] at hpr)

/-! ## C5 -/

theorem findAlphaPosFrom_zero_of_no_alpha (cs : List Char) :
    ∀ i : Nat, (∀ c ∈ cs, c.isAlpha = false) → findAlphaPosFrom cs i = 0 := by
  induction cs with
  | nil => intro i _; rfl
  | cons c cs ih =>
    intro i h
    have hc : c.isAlpha = false := h c (List.mem_cons_self c cs)
    simp only [findAlphaPosFrom, hc]
    exact ih (i + 1) (fun x hx => h x (List.mem_cons_of_mem c hx))

theorem findAlphaPos_zero_of_no_alpha (cs : List Char) (h : ∀ c ∈ cs, c.isAlpha = false) :
    findAlphaPos cs = 0 :=
  findAlphaPosFrom_zero_of_no_alpha cs 0 h

/-- Claim C5: for malformed duration texts `parse_duration` returns an
error, never a value, with the variant as specified — `InvalidFormat` for
an empty (trimmed) string or when no alphabetic unit character is found
(`split_pos` stays 0, which also covers a leading alphabetic character as
in `"abc"`); `InvalidNumber` when the numeric part fails to parse or is
negative; `UnknownUnit` when the unit token is not one of
`ms`/`s`/`m`/`h`/`hr`; in particular `""`, `"abc"`, `"10xyz"` and `"-5s"`
all yield errors. -/
theorem c5_malformed_inputs_error :
    ∀ s : String,
      (normInput s = [] →
        parse_duration s = Except.error (ParseError.InvalidFormat "Empty duration string"))
      ∧ (normInput s ≠ [] → (∀ c ∈ normInput s, c.isAlpha = false) →
        parse_duration s = Except.error (ParseError.InvalidFormat "No unit specified"))
      ∧ (normInput s ≠ [] → findAlphaPos (normInput s) = 0 →
        parse_duration s = Except.error (ParseError.InvalidFormat "No unit specified"))
      ∧ (findAlphaPos (normInput s) ≠ 0 →
         parseNumber ((normInput s).take (findAlphaPos (normInput s))) = none →
        parse_duration s = Except.error (ParseError.InvalidNumber
          (String.mk ((normInput s).take (findAlphaPos (normInput s))))))
      ∧ (∀ digits scale : Nat, findAlphaPos (normInput s) ≠ 0 →
         parseNumber ((normInput s).take (findAlphaPos (normInput s))) = some (true, digits, scale) →
         digits ≠ 0 →
        parse_duration s = Except.error (ParseError.InvalidNumber "Duration cannot be negative"))
      ∧ (∀ (neg : Bool) (digits scale : Nat), findAlphaPos (normInput s) ≠ 0 →
         parseNumber ((normInput s).take (findAlphaPos (normInput s))) = some (neg, digits, scale) →
         (neg = false ∨ digits = 0) →
         String.mk ((normInput s).drop (findAlphaPos (normInput s)))
           ∉ (["ms", "s", "m", "h", "hr"] : List String) →
        parse_duration s = Except.error (ParseError.UnknownUnit
          (String.mk ((normInput s).drop (findAlphaPos (normInput s))))))
      ∧ (parse_duration "" = Except.error (ParseError.InvalidFormat "Empty duration string"))
      ∧ (parse_duration "abc" = Except.error (ParseError.InvalidFormat "No unit specified"))
      ∧ (parse_duration "10xyz" = Except.error (ParseError.UnknownUnit "xyz"))
      ∧ (parse_duration "-5s" = Except.error (ParseError.InvalidNumber "Duration cannot be negative")) := by
  intro s
  refine ⟨?_, ?_, ?_, ?_, ?_, ?_, by decide, by decide, by decide, by decide⟩
  · intro h
    simp [parse_duration, h]
  · intro hne halpha
    have h0 : findAlphaPos (normInput s) = 0 := findAlphaPos_zero_of_no_alpha _ halpha
    have hemp : (normInput s).isEmpty = false := by
      cases hcs : normInput s
      · exact absurd hcs hne
      · rfl
    simp [parse_duration, hemp, h0]
  · intro hne h0
    have hemp : (normInput s).isEmpty = false := by
      cases hcs : normInput s
      · exact absurd hcs hne
      · rfl
    simp [parse_duration, hemp, h0]
  · intro hsp hnone
    have hne : normInput s ≠ [] := by
      intro h
      exact hsp (by rw [h]; rfl)
    have hemp : (normInput s).isEmpty = false := by
      cases hcs : normInput s
      · exact absurd hcs hne
      · rfl
    simp [parse_duration, hemp, hsp, hnone]
  · intro digits scale hsp hsome hdig
    have hne : normInput s ≠ [] := by
      intro h
      exact hsp (by rw [h]; rfl)
    have hemp : (normInput s).isEmpty = false := by
      cases hcs : normInput s
      · exact absurd hcs hne
      · rfl
    simp [parse_duration, hemp, hsp, hsome, hdig]
  · intro neg digits scale hsp hsome hpos hnotin
    have hne : normInput s ≠ [] := by
      intro h
      exact hsp (by rw [h]; rfl)
    have hemp : (normInput s).isEmpty = false := by
      cases hcs : normInput s
      · exact absurd hcs hne
      · rfl
    have hcond : (neg && digits != 0) = false := by
      rcases hpos with h | h <;> simp [h]
    simp only [List.mem_cons, List.not_mem_nil, or_false, not_or] at hnotin
    obtain ⟨h1, h2, h3, h4, h5⟩ := hnotin
    simp [parse_duration, hemp, hsp, hsome, hcond, h1, h2, h3, h4, h5]

/-- Witness for C5: the negative-number branch applied at `"-5s"`. -/
theorem c5_witness :
    parse_duration "-5s" = Except.error (ParseError.InvalidNumber "Duration cannot be negative") :=
  (c5_malformed_inputs_error "-5s").2.2.2.2.1 5 0 (by decide) (by decide) (by decide)

/-- Witness for C3: removing an unknown id from the empty engine logs the
attempt, returns `none`, and a second removal also returns `none`. -/
theorem c3_witness :
    ((TimerShip.remove_timer emptyShip 1 2 true).2.oplog
        = emptyShip.oplog ++ [{ timestamp := 2, operation := LogOperation.RemoveTimer 1 }])
    ∧ ((TimerShip.remove_timer emptyShip 1 2 true).1
        = Except.ok (TimerData.get_data emptyShip.timer_data 1))
    ∧ (∀ t ∈ (TimerShip.remove_timer emptyShip 1 2 true).2.timers, t.id ≠ 1)
    ∧ ((TimerShip.remove_timer (TimerShip.remove_timer emptyShip 1 2 true).2 1 3 true).1
        = Except.ok none) :=
  c3_remove_semantics emptyShip 1 2 3

/-! ## C4 -/

theorem roundF64Frac_den_pos (n d : Nat) : 0 < (roundF64Frac n d).2 := by
  unfold roundF64Frac
  split
  · exact Nat.one_pos
  · dsimp only
    split
    · exact pow_pos (by norm_num) _
    · exact Nat.one_pos

theorem f64OfDecimal_den_pos (digits scale : Nat) : 0 < (f64OfDecimal digits scale).2 :=
  roundF64Frac_den_pos digits (10 ^ scale)

theorem f64Mul_den_pos (r : Nat × Nat) (factor : Nat) : 0 < (f64Mul r factor).2 :=
  roundF64Frac_den_pos (r.1 * factor) r.2

theorem nat_div_eq_of_cross (a b c d : Nat) (hb : 0 < b) (hd : 0 < d)
    (h : a * d = c * b) : a / b = c / d := by
  have h1 : a * d / (b * d) = a / b := Nat.mul_div_mul_right a b hd
  have h2 : c * b / (d * b) = c / d := Nat.mul_div_mul_right c d hb
  rw [← h1, ← h2, h, Nat.mul_comm b d]

theorem f64Mul_cross (r : Nat × Nat) (f D v : Nat) (hr2 : 0 < r.2)
    (hr : r.1 * D = v * r.2)
    (hm : (f64Mul r f).1 * r.2 = r.1 * f * (f64Mul r f).2) :
    (f64Mul r f).1 * D = v * f * (f64Mul r f).2 := by
  refine Nat.eq_of_mul_eq_mul_right hr2 ?_
  calc (f64Mul r f).1 * D * r.2 = (f64Mul r f).1 * r.2 * D := by ring
    _ = r.1 * f * (f64Mul r f).2 * D := by rw [hm]
    _ = r.1 * D * f * (f64Mul r f).2 := by ring
    _ = v * r.2 * f * (f64Mul r f).2 := by rw [hr]
    _ = v * f * (f64Mul r f).2 * r.2 := by ring

theorem truncSatF64_eq_msOf (r : Nat × Nat) (digits scale factor : Nat) (hr2 : 0 < r.2)
    (h : r.1 * 10 ^ scale = digits * factor * r.2) :
    truncSatF64 r = msOf digits scale factor := by
  unfold truncSatF64 msOf
  congr 1
  exact nat_div_eq_of_cross r.1 r.2 (digits * factor) (10 ^ scale) hr2
    (pow_pos (by norm_num) scale) h

/-- Counterexample to claim C4 at the valid input `"1.001s"`. The source
parses `"1.001"` into the binary64 value `4508103226997866 / 2^52`,
strictly below `1001/1000` (correctly rounded decimal-to-double); the
`f64` multiplication by `1000.0` then rounds to `8804889115230207 / 2^43`
= 1000.9999999999999, and `as u64` truncates it to `1000`. The
arithmetically correct millisecond value under the claim's conversion
`s → ×1000` is `1001`, as the exact-arithmetic `parse_duration` computes.
So at `"1.001s"` the code returns `Ok(1000)`, not the arithmetically
correct value, refuting the universally quantified claim. -/
theorem c4_f64_counterexample :
    parse_duration_f64 "1.001s" = Except.ok 1000
    ∧ parse_duration "1.001s" = Except.ok 1001
    ∧ f64OfDecimal 1001 3 = (4508103226997866, 4503599627370496)
    ∧ f64Mul (f64OfDecimal 1001 3) 1000 = (8804889115230207, 8796093022208)
    ∧ (1000 : Nat) ≠ 1001 := by
  refine ⟨by decide, by decide, by decide, by decide, by decide⟩

/-- Claim C4 (amended): `parse_duration` returns the arithmetically
correct millisecond value (`ms`→×1, `s`→×1000, `m`→×60000,
`h`/`hr`→×3600000, truncated to an unsigned integer) on every valid
duration text whose binary64 parse and binary64 products are exact — in
particular on the four listed examples, `"100ms"` = 100, `"2.5s"` = 2500,
`"1m"` = 60000, `"1.5hr"` = 5400000; on other valid texts the `f64`
roundings can shift the truncated result (e.g. `"1.001s"` yields 1000,
not 1001). Exactness of the parse and of each product along the unit's
factor chain is stated as the hypotheses that every `roundF64Frac` step
preserves the value, and the conclusion is that the `f64`-faithful result
agrees with the exact-arithmetic reference `parse_duration`. -/
theorem c4_arithmetically_correct_on_f64_exact_inputs :
    (parse_duration_f64 "100ms" = Except.ok 100)
    ∧ (parse_duration_f64 "2.5s" = Except.ok 2500)
    ∧ (parse_duration_f64 "1m" = Except.ok 60000)
    ∧ (parse_duration_f64 "1.5hr" = Except.ok 5400000)
    ∧ (∀ (input : String) (digits scale : Nat),
        findAlphaPos (normInput input) ≠ 0 →
        parseNumber ((normInput input).take (findAlphaPos (normInput input)))
          = some (false, digits, scale) →
        String.mk ((normInput input).drop (findAlphaPos (normInput input))) = "ms" →
        (f64OfDecimal digits scale).1 * 10 ^ scale = digits * (f64OfDecimal digits scale).2 →
        parse_duration_f64 input = parse_duration input)
    ∧ (∀ (input : String) (digits scale : Nat),
        findAlphaPos (normInput input) ≠ 0 →
        parseNumber ((normInput input).take (findAlphaPos (normInput input)))
          = some (false, digits, scale) →
        String.mk ((normInput input).drop (findAlphaPos (normInput input))) = "s" →
        (f64OfDecimal digits scale).1 * 10 ^ scale = digits * (f64OfDecimal digits scale).2 →
        (f64Mul (f64OfDecimal digits scale) 1000).1 * (f64OfDecimal digits scale).2
          = (f64OfDecimal digits scale).1 * 1000 * (f64Mul (f64OfDecimal digits scale) 1000).2 →
        parse_duration_f64 input = parse_duration input)
    ∧ (∀ (input : String) (digits scale : Nat),
        findAlphaPos (normInput input) ≠ 0 →
        parseNumber ((normInput input).take (findAlphaPos (normInput input)))
          = some (false, digits, scale) →
        String.mk ((normInput input).drop (findAlphaPos (normInput input))) = "m" →
        (f64OfDecimal digits scale).1 * 10 ^ scale = digits * (f64OfDecimal digits scale).2 →
        (f64Mul (f64OfDecimal digits scale) 60).1 * (f64OfDecimal digits scale).2
          = (f64OfDecimal digits scale).1 * 60 * (f64Mul (f64OfDecimal digits scale) 60).2 →
        (f64Mul (f64Mul (f64OfDecimal digits scale) 60) 1000).1 * (f64Mul (f64OfDecimal digits scale) 60).2
          = (f64Mul (f64OfDecimal digits scale) 60).1 * 1000
            * (f64Mul (f64Mul (f64OfDecimal digits scale) 60) 1000).2 →
        parse_duration_f64 input = parse_duration input)
    ∧ (∀ (input : String) (digits scale : Nat),
        findAlphaPos (normInput input) ≠ 0 →
        parseNumber ((normInput input).take (findAlphaPos (normInput input)))
          = some (false, digits, scale) →
        (String.mk ((normInput input).drop (findAlphaPos (normInput input))) = "h"
          ∨ String.mk ((normInput input).drop (findAlphaPos (normInput input))) = "hr") →
        (f64OfDecimal digits scale).1 * 10 ^ scale = digits * (f64OfDecimal digits scale).2 →
        (f64Mul (f64OfDecimal digits scale) 60).1 * (f64OfDecimal digits scale).2
          = (f64OfDecimal digits scale).1 * 60 * (f64Mul (f64OfDecimal digits scale) 60).2 →
        (f64Mul (f64Mul (f64OfDecimal digits scale) 60) 60).1 * (f64Mul (f64OfDecimal digits scale) 60).2
          = (f64Mul (f64OfDecimal digits scale) 60).1 * 60
            * (f64Mul (f64Mul (f64OfDecimal digits scale) 60) 60).2 →
        (f64Mul (f64Mul (f64Mul (f64OfDecimal digits scale) 60) 60) 1000).1
            * (f64Mul (f64Mul (f64OfDecimal digits scale) 60) 60).2
          = (f64Mul (f64Mul (f64OfDecimal digits scale) 60) 60).1 * 1000
            * (f64Mul (f64Mul (f64Mul (f64OfDecimal digits scale) 60) 60) 1000).2 →
        parse_duration_f64 input = parse_duration input) := by
  refine ⟨by decide, by decide, by decide, by decide, ?_, ?_, ?_, ?_⟩
  · intro input digits scale hsp hsome hunit h0
    have hne : normInput input ≠ [] := fun h => hsp (by rw [h]; rfl)
    have hemp : (normInput input).isEmpty = false := by
      cases hcs : normInput input
      · exact absurd hcs hne
      · rfl
    have hval : truncSatF64 (f64OfDecimal digits scale) = msOf digits scale 1 :=
      truncSatF64_eq_msOf _ digits scale 1 (f64OfDecimal_den_pos digits scale)
        (by rw [h0]; ring)
    simp [parse_duration_f64, parse_duration, hemp, hsp, hsome, hunit, hval]
  · intro input digits scale hsp hsome hunit h0 h1
    have hne : normInput input ≠ [] := fun h => hsp (by rw [h]; rfl)
    have hemp : (normInput input).isEmpty = false := by
      cases hcs : normInput input
      · exact absurd hcs hne
      · rfl
    have hcross := f64Mul_cross (f64OfDecimal digits scale) 1000 (10 ^ scale) digits
      (f64OfDecimal_den_pos digits scale) h0 h1
    have hval : truncSatF64 (f64Mul (f64OfDecimal digits scale) 1000) = msOf digits scale 1000 :=
      truncSatF64_eq_msOf _ digits scale 1000
        (f64Mul_den_pos (f64OfDecimal digits scale) 1000) hcross
    simp [parse_duration_f64, parse_duration, hemp, hsp, hsome, hunit, hval]
  · intro input digits scale hsp hsome hunit h0 h1 h2
    have hne : normInput input ≠ [] := fun h => hsp (by rw [h]; rfl)
    have hemp : (normInput input).isEmpty = false := by
      cases hcs : normInput input
      · exact absurd hcs hne
      · rfl
    have hcross1 := f64Mul_cross (f64OfDecimal digits scale) 60 (10 ^ scale) digits
      (f64OfDecimal_den_pos digits scale) h0 h1
    have hcross2 := f64Mul_cross (f64Mul (f64OfDecimal digits scale) 60) 1000 (10 ^ scale)
      (digits * 60) (f64Mul_den_pos (f64OfDecimal digits scale) 60) hcross1 h2
    have hval : truncSatF64 (f64Mul (f64Mul (f64OfDecimal digits scale) 60) 1000)
        = msOf digits scale 60000 :=
      truncSatF64_eq_msOf _ digits scale 60000
        (f64Mul_den_pos (f64Mul (f64OfDecimal digits scale) 60) 1000)
        (by rw [hcross2]; ring)
    simp [parse_duration_f64, parse_duration, hemp, hsp, hsome, hunit, hval]
  · intro input digits scale hsp hsome hunit h0 h1 h2 h3
    have hne : normInput input ≠ [] := fun h => hsp (by rw [h]; rfl)
    have hemp : (normInput input).isEmpty = false := by
      cases hcs : normInput input
      · exact absurd hcs hne
      · rfl
    have hcross1 := f64Mul_cross (f64OfDecimal digits scale) 60 (10 ^ scale) digits
      (f64OfDecimal_den_pos digits scale) h0 h1
    have hcross2 := f64Mul_cross (f64Mul (f64OfDecimal digits scale) 60) 60 (10 ^ scale)
      (digits * 60) (f64Mul_den_pos (f64OfDecimal digits scale) 60) hcross1 h2
    have hcross3 := f64Mul_cross (f64Mul (f64Mul (f64OfDecimal digits scale) 60) 60) 1000
      (10 ^ scale) (digits * 60 * 60)
      (f64Mul_den_pos (f64Mul (f64OfDecimal digits scale) 60) 60) hcross2 h3
    have hval : truncSatF64 (f64Mul (f64Mul (f64Mul (f64OfDecimal digits scale) 60) 60) 1000)
        = msOf digits scale 3600000 :=
      truncSatF64_eq_msOf _ digits scale 3600000
        (f64Mul_den_pos (f64Mul (f64Mul (f64OfDecimal digits scale) 60) 60) 1000)
        (by rw [hcross3]; ring)
    rcases hunit with hunit | hunit <;>
      simp [parse_duration_f64, parse_duration, hemp, hsp, hsome, hunit, hval]

/-- Witness for the amended C4 theorem: the seconds path applied at
`"2.5s"`, whose parse and product are binary64-exact. -/
theorem c4_witness :
    parse_duration_f64 "2.5s" = parse_duration "2.5s" :=
  c4_arithmetically_correct_on_f64_exact_inputs.2.2.2.2.2.1 "2.5s" 25 1
    (by decide) (by decide) (by decide) (by decide) (by decide)
